import Mathlib

/-!
Verification development for the MCP-Images repository (`src/mcp_image.py`).

The Python source is shallowly embedded: pure string manipulation is
translated to Lean functions on `String` / `List Char`; effectful code
(HTTP requests, the Azure blob store, the filesystem, the Selenium
browser session, wall-clock timestamps, Python `set` iteration order) is
parameterised by explicit environment records supplying the outcome of
each external interaction, and the functions additionally return traces
of the external calls they issue.  All embedded functions are
executable.  Unless noted otherwise the embedding is faithful for ASCII
inputs (the Python code applies `str.lower`, `%`-decoding and regexes to
scraped URLs; all string literals involved are ASCII).
-/

namespace MCPImage

/-! ## Python string primitives -/

/-- Python `str.isspace` characters relevant to `str.strip()` and the
regex class `\s`, restricted to ASCII (mcp_image.py only strips/queries
ASCII whitespace in the claims considered). -/
def pyIsSpace (c : Char) : Bool :=
  c == ' ' || c == '\t' || c == '\n' || c == '\r' || c == '\x0b' || c == '\x0c'

/-- `s.strip()` is empty, i.e. `s` is empty or whitespace-only
(the condition `not search_query.strip()` at mcp_image.py:513). -/
def pyStripIsEmpty (s : String) : Bool :=
  s.toList.all pyIsSpace

/-- Python `str.lower()` (ASCII). -/
def pyLower (s : String) : String :=
  String.mk (s.toList.map Char.toLower)

/-- Python substring test `pat in s`. -/
def pyContains (s pat : String) : Bool :=
  decide (pat.toList <:+: s.toList)

/-- Python `s.startswith(pre)`. -/
def pyStartsWith (s pre : String) : Bool :=
  pre.toList.isPrefixOf s.toList

/-- Python `s.endswith(suf)`. -/
def pyEndsWith (s suf : String) : Bool :=
  suf.toList.isSuffixOf s.toList

/-- Non-overlapping left-to-right replacement, auxiliary for `pyReplace`
(the pattern is `p :: ps`, guaranteed non-empty).  Structural recursion
on a fuel bounded by the text length: every step consumes at least one
character, so fuel equal to the length is enough. -/
def replaceAux (p : Char) (ps rep : List Char) : Nat → List Char → List Char
  | _, [] => []
  | 0, l => l
  | fuel + 1, c :: t =>
    if (p :: ps).isPrefixOf (c :: t) then
      rep ++ replaceAux p ps rep fuel (t.drop ps.length)
    else c :: replaceAux p ps rep fuel t

/-- Python `s.replace(pat, rep)` (all occurrences, leftmost first).
Only used with non-empty patterns in the source. -/
def pyReplace (s pat rep : String) : String :=
  match pat.toList with
  | [] => s
  | p :: ps => String.mk (replaceAux p ps rep.toList s.toList.length s.toList)

/-- Value of an ASCII hex digit. -/
def hexVal (c : Char) : Option Nat :=
  if '0' ≤ c && c ≤ '9' then some (c.toNat - 48)
  else if 'A' ≤ c && c ≤ 'F' then some (c.toNat - 55)
  else if 'a' ≤ c && c ≤ 'f' then some (c.toNat - 87)
  else none

/-- Uppercase hex digit for a value below 16. -/
def hexDigitU (n : Nat) : Char :=
  if n < 10 then Char.ofNat (48 + n) else Char.ofNat (55 + n)

/-- `urllib.parse.unquote`: decode `%XX` escapes, leave malformed escapes
untouched.  Faithful for ASCII escape values; Python additionally
UTF-8-decodes consecutive high bytes, which no claim exercises. -/
def pyUnquoteList : List Char → List Char
  | [] => []
  | '%' :: a :: b :: rest =>
    match hexVal a, hexVal b with
    | some x, some y => Char.ofNat (16 * x + y) :: pyUnquoteList rest
    | _, _ => '%' :: pyUnquoteList (a :: b :: rest)
  | c :: rest => c :: pyUnquoteList rest

def pyUnquote (s : String) : String :=
  String.mk (pyUnquoteList s.toList)

/-- `urllib.parse.quote` with the default `safe='/'`: ASCII letters,
digits, `_.-~` and `/` kept, everything else percent-encoded
(single-byte/ASCII fidelity). -/
def quoteChar (c : Char) : List Char :=
  if c.isAlphanum || c == '_' || c == '.' || c == '-' || c == '~' || c == '/' then [c]
  else ['%', hexDigitU (c.toNat / 16 % 16), hexDigitU (c.toNat % 16)]

def pyQuote (s : String) : String :=
  String.mk (s.toList.map quoteChar).flatten

/-- Python `str.split(sep)` for a single-character separator
(agrees with `str.split` on the uses in the source: `'/'` and `'.'`). -/
def splitOnChar (sep : Char) : List Char → List (List Char)
  | [] => [[]]
  | c :: t =>
    let r := splitOnChar sep t
    if c == sep then [] :: r
    else
      match r with
      | [] => [[c]]
      | h :: t' => (c :: h) :: t'

def pySplit (s : String) (sep : Char) : List String :=
  (splitOnChar sep s.toList).map String.mk

/-- Python string slice `s[n:]` (character-based). -/
def pyTail (s : String) (n : Nat) : String :=
  String.mk (s.toList.drop n)

/-- Python `os.path.basename` (posix): everything after the last `/`. -/
def pyBasename (p : String) : String :=
  (pySplit p '/').getLastD ""

/-- Python `os.path.splitext` (posix): split at the last dot of the
basename, unless all characters of the basename before that dot are
dots (so `.bashrc` has no extension). -/
def pySplitext (p : String) : String × String :=
  let pl := p.toList
  let bl := (pyBasename p).toList
  match bl.reverse.findIdx? (fun c => c == '.') with
  | none => (p, "")
  | some k =>
    let j := bl.length - 1 - k
    if (bl.take j).any (fun c => c != '.') then
      let extLen := bl.length - j
      (String.mk (pl.take (pl.length - extLen)), String.mk (pl.drop (pl.length - extLen)))
    else (p, "")

/-! ## `urllib.parse.urlparse` (scheme / netloc / path) -/

def isSchemeChar (c : Char) : Bool :=
  c.isAlphanum || c == '+' || c == '-' || c == '.'

/-- Split off the scheme as `urllib.parse.urlsplit` does: the text
before the first `:` if it is non-empty, starts with a letter and
consists of scheme characters. -/
def pyUrlScheme (u : String) : String × String :=
  let l := u.toList
  match l.findIdx? (fun c => c == ':') with
  | none => ("", u)
  | some i =>
    let pre := l.take i
    if 0 < i && (match pre with | c :: _ => c.isAlpha | [] => false)
        && pre.all isSchemeChar then
      (String.mk (pre.map Char.toLower), String.mk (l.drop (i + 1)))
    else ("", u)

/-- `_splitparams`: drop the `;params` part of the final path segment. -/
def splitParams (p : List Char) : List Char :=
  match p.reverse.findIdx? (fun c => c == '/') with
  | none => p.takeWhile (fun c => c != ';')
  | some k =>
    let slashIdx := p.length - 1 - k
    match (p.drop slashIdx).findIdx? (fun c => c == ';') with
    | none => p
    | some j => p.take (slashIdx + j)

structure PyUrl where
  scheme : String
  netloc : String
  path : String
deriving Repr, DecidableEq

/-- `urllib.parse.urlparse`, restricted to the fields the source reads
(`scheme`, `netloc`, `path`); query/fragment/params are split off and
discarded exactly where Python does. -/
def pyUrlparse (u : String) : PyUrl :=
  let (sch, rest) := pyUrlScheme u
  let rl := rest.toList
  let netlocDelim := fun (c : Char) => c == '/' || c == '?' || c == '#'
  let (netloc, rl2) :=
    if ('/' :: '/' :: []).isPrefixOf rl then
      let after := rl.drop 2
      (after.takeWhile (fun c => !netlocDelim c), after.dropWhile (fun c => !netlocDelim c))
    else ([], rl)
  let noFrag := rl2.takeWhile (fun c => c != '#')
  let path := noFrag.takeWhile (fun c => c != '?')
  let path2 := if path.contains ';' then splitParams path else path
  { scheme := sch, netloc := String.mk netloc, path := String.mk path2 }

/-! ## Royalty-free domain filter (mcp_image.py:34-40) -/

def ROYALTY_FREE_DOMAINS : List String :=
  ["pexels.com", "unsplash.com", "pixabay.com", "freepik.com", "stock.adobe.com"]

/-- `is_royalty_free_url` (mcp_image.py:38-40): some blocked domain is a
substring of the parsed netloc. -/
def is_royalty_free_url (url : String) : Bool :=
  ROYALTY_FREE_DOMAINS.any (fun d => pyContains (pyUrlparse url).netloc d)

/-! ## URL extractor of `_search_simple_method` (mcp_image.py:161-192)

The five regex patterns applied with `re.findall(…, re.IGNORECASE)` are
embedded as explicit left-to-right, leftmost, non-overlapping scanners
over the character list, mirroring Python regex semantics for these
particular patterns:

* `"ou":"([^"]*)"`, `"data-src":"([^"]*)"`, `"src":"([^"]*)"`: find the
  literal opening (case-insensitively), capture up to the next `"`;
  `findall` returns the capture group and resumes after the full match.
* `https?://[^"\s,]+\.(?:jpg|jpeg|png|gif|webp)(?:[^"\s,]*)?`: after a
  scheme, the greedy classes always extend the match to the end of the
  maximal run of characters outside `"\s,`, and the match succeeds iff
  that run contains `.ext` at some position after at least one run
  character.
* `https?://[^"\s,]*(?:jpg|jpeg|png|gif|webp)[^"\s,]*`: same, with the
  bare extension anywhere in the run.
-/

/-- A character excluded by the regex class `[^"\s,]`. -/
def isExcluded (c : Char) : Bool :=
  c == '"' || pyIsSpace c || c == ','

def notExcluded (c : Char) : Bool := !isExcluded c

/-- Case-insensitive character match (`re.IGNORECASE`). -/
def charCI (p c : Char) : Bool := p.toLower == c.toLower

def isPrefixOfCI : List Char → List Char → Bool
  | [], _ => true
  | _ :: _, [] => false
  | p :: ps, c :: cs => charCI p c && isPrefixOfCI ps cs

def isInfixOfCI (p : List Char) : List Char → Bool
  | [] => p.isEmpty
  | c :: t => isPrefixOfCI p (c :: t) || isInfixOfCI p t

/-- Extension alternation `(?:jpg|jpeg|png|gif|webp)` of the raw-URL
patterns. -/
def regexExts : List String := ["jpg", "jpeg", "png", "gif", "webp"]

def hasExtCI (run : List Char) : Bool :=
  regexExts.any (fun e => isInfixOfCI e.toList run)

/-- Does the list start with `.` followed by one of the extensions? -/
def dotExtHere : List Char → Bool
  | '.' :: r => regexExts.any (fun e => isPrefixOfCI e.toList r)
  | _ => false

/-- Is there `.ext` at some index `j ≥ 1` of the run (the `+` of
pattern 4 requires one character before the dot)? -/
def p4Scan : List Char → Bool
  | [] => false
  | _ :: t => dotExtHere t || p4Scan t

/-- Match `https?://` (case-insensitively) and report its length; the
greedy `s?` tries `https://` first. -/
def schemeHeadLen (l : List Char) : Option Nat :=
  if isPrefixOfCI ("https://".toList) l then some 8
  else if isPrefixOfCI ("http://".toList) l then some 7
  else none

/-- One match attempt of pattern 5 at the head of `l`; on success
returns the matched text and the remainder after the match. -/
def match5head (l : List Char) : Option (List Char × List Char) :=
  match schemeHeadLen l with
  | none => none
  | some k =>
    let rest := l.drop k
    let run := rest.takeWhile notExcluded
    if hasExtCI run then some (l.take k ++ run, rest.dropWhile notExcluded)
    else none

/-- One match attempt of pattern 4 at the head of `l`. -/
def match4head (l : List Char) : Option (List Char × List Char) :=
  match schemeHeadLen l with
  | none => none
  | some k =>
    let rest := l.drop k
    let run := rest.takeWhile notExcluded
    if p4Scan run then some (l.take k ++ run, rest.dropWhile notExcluded)
    else none

/-- One match attempt of a quoted-field pattern `"key":"([^"]*)"` at the
head of `l`; on success returns the capture group and the remainder
after the full match (including the closing quote). -/
def quotedHead (key : List Char) (l : List Char) : Option (List Char × List Char) :=
  let pat := '"' :: (key ++ ['"', ':', '"'])
  if isPrefixOfCI pat l then
    let rest := l.drop pat.length
    let cap := rest.takeWhile (fun c => c != '"')
    match rest.dropWhile (fun c => c != '"') with
    | '"' :: tail => some (cap, tail)
    | _ => none
  else none

/-- `re.findall` driver: try a match at every position, left to right;
on a match, emit it and resume after it (non-overlapping).  Every head
function above consumes at least 7 characters on success, so fuel equal
to the text length suffices. -/
def scanGo (head : List Char → Option (List Char × List Char)) :
    Nat → List Char → List (List Char)
  | 0, _ => []
  | _ + 1, [] => []
  | fuel + 1, c :: t =>
    match head (c :: t) with
    | some (m, l') => m :: scanGo head fuel l'
    | none => scanGo head fuel t

def scanMatches (head : List Char → Option (List Char × List Char))
    (text : List Char) : List (List Char) :=
  scanGo head text.length text

def quotedFieldMatches (key : String) (text : List Char) : List (List Char) :=
  scanMatches (quotedHead key.toList) text

def scan4 (text : List Char) : List (List Char) := scanMatches match4head text

def scan5 (text : List Char) : List (List Char) := scanMatches match5head text

/-- All raw matches of the five patterns in source order
(mcp_image.py:162-168). -/
def patternMatches (text : List Char) : List (List Char) :=
  quotedFieldMatches "ou" text ++ quotedFieldMatches "data-src" text ++
    quotedFieldMatches "src" text ++ scan4 text ++ scan5 text

/-- The cleanup applied to each match (mcp_image.py:175-181):
`=`→`=`, `&`→`&`, `\/`→`/`, then `unquote`. -/
def cleanUrl (u : String) : String :=
  pyUnquote (pyReplace (pyReplace (pyReplace u "\\u003d" "=") "\\u0026" "&") "\\/" "/")

def imageExtMarkers : List String := [".jpg", ".jpeg", ".png", ".gif", ".webp"]

def skipPatterns : List String :=
  ["gstatic.com", "ggpht.com", "googleusercontent.com", "encrypted-tbn",
   "logo", "icon", "avatar", "profile", "thumbnail"]

/-- The candidate filter (mcp_image.py:183-191): starts with `http`,
mentions an image extension, avoids the skip markers, and has length
strictly between 20 and 2000. -/
def keepUrl (u : String) : Bool :=
  pyStartsWith u "http" &&
  imageExtMarkers.any (fun e => pyContains (pyLower u) e) &&
  !(skipPatterns.any (fun p => pyContains (pyLower u) p)) &&
  (decide (20 < u.length) && decide (u.length < 2000))

/-- The extracted candidate set `found_urls` (insertion order; Python
`set` iteration order is unspecified and no theorem depends on the
order, only on membership). -/
def extractImageUrls (text : String) : List String :=
  (((patternMatches text.toList).map (fun m => cleanUrl (String.mk m))).filter keepUrl).dedup

/-! ## Search results and the validation loop of `_search_simple_method`
(mcp_image.py:194-243) -/

/-- One entry of the list returned by a search; mirrors the Python dicts
(`none` = key absent). -/
structure SearchResult where
  url : Option String := none
  title : Option String := none
  source : Option String := none
  error : Option String := none
  status : String
deriving Repr, DecidableEq

/-- Outcome of the HEAD probe `test_client.head(url)`:
`.exn` if the request raises, otherwise the status code and the
`content-type` header (`none` = header absent). -/
inductive ProbeResult where
  | exn
  | resp (status : Nat) (contentType : Option String)
deriving Repr, DecidableEq

/-- The success entry appended for a validated candidate
(mcp_image.py:210-226): the title is the path's basename when
non-empty, else "Image from {domain}". -/
def simpleSuccessEntry (u : String) : SearchResult :=
  let parsed := pyUrlparse u
  let domain := parsed.netloc
  let filename := pyBasename parsed.path
  let title := if filename != "" then filename
               else "Image from " ++ domain
  { url := some u, title := some title,
    source := some ("https://" ++ domain), status := "success" }

/-- The entry appended for a candidate whose probe raised
(mcp_image.py:228-240). -/
def unvalidatedEntry (u : String) : SearchResult :=
  let domain := (pyUrlparse u).netloc
  { url := some u,
    title := some ("Image from " ++ domain ++ " (unvalidated)"),
    source := some ("https://" ++ domain), status := "success" }

/-- One iteration body of the validation loop: how `valid_results`
grows after probing `u` (mcp_image.py:204-240).  A 200 response with an
`image/` content type appends a success entry; an exception appends the
"(unvalidated)" entry (guarded again by the cap, as in the source); any
other response appends nothing. -/
def svlStep (probe : String → ProbeResult) (m : Int) (u : String)
    (acc : List SearchResult) : List SearchResult :=
  match probe u with
  | .resp st ct =>
    if st == 200 && pyStartsWith (ct.getD "") "image/" then
      acc ++ [simpleSuccessEntry u]
    else acc
  | .exn =>
    if (acc.length : Int) < m then acc ++ [unvalidatedEntry u]
    else acc

/-- The validation loop over candidate URLs (mcp_image.py:199-240).
Returns the accumulated `valid_results` and the list of URLs actually
probed; stops (the `break` at mcp_image.py:201-202) once the
accumulator has reached `max_results`. -/
def simpleValidateLoop (probe : String → ProbeResult) (m : Int) :
    List String → List SearchResult → List SearchResult × List String
  | [], acc => (acc, [])
  | u :: rest, acc =>
    if (acc.length : Int) ≥ m then (acc, [])
    else
      let res := simpleValidateLoop probe m rest (svlStep probe m u acc)
      (res.1, u :: res.2)

/-- Python slice `l[:n]` for an arbitrary integer bound. -/
def pySliceTo (n : Int) (l : List α) : List α :=
  if 0 ≤ n then l.take n.toNat else l.take (l.length - (-n).toNat)

/-- Environment of `_search_simple_method`: outcomes of the two search-
page fetches (`none` = request failed or non-2xx), the iteration order
Python imposes on the `found_urls` set (unspecified by the language, so
supplied as an oracle constrained to a permutation), and the HEAD probe
oracle. -/
structure SimpleEnv where
  fetch1 : Option String
  fetch2 : Option String
  orderSet : List String → List String
  orderSet_perm : ∀ l, (orderSet l).Perm l
  probe : String → ProbeResult

/-- A search run: the returned list plus the URLs requested over the
network (search-page fetches and HEAD probes). -/
structure SearchRun where
  results : List SearchResult
  requests : List String
deriving Repr

/-- `_search_simple_method` (mcp_image.py:115-247).  The two URL
templates are tried in order; on success the body is scraped, the
candidate set is truncated to `max_results * 3` and validated. -/
def searchSimpleMethod (env : SimpleEnv) (query : String) (m : Int) : SearchRun :=
  let eq := pyQuote query
  let url1 := "https://www.google.com/search?q=" ++ eq ++ "&udm=2&hl=en"
  let url2 := "https://www.google.com/search?q=" ++ eq ++ "&tbm=isch&hl=en"
  let fetched : List String × Option String :=
    match env.fetch1 with
    | some body => ([url1], some body)
    | none =>
      match env.fetch2 with
      | some body => ([url1, url2], some body)
      | none => ([url1, url2], none)
  match fetched with
  | (reqs, none) =>
    { results := [{ error := some "Failed to fetch Google Images page with any URL format",
                    status := "failed" }],
      requests := reqs }
  | (reqs, some html) =>
    let uniqueUrls := pySliceTo (m * 3) (env.orderSet (extractImageUrls html))
    let (res, probed) := simpleValidateLoop env.probe m uniqueUrls []
    { results := res, requests := reqs ++ probed }

/-! ## Selenium strategy `search_images_selenium` (mcp_image.py:249-383)

The browser session is modelled by an explicit control-flow environment:
how `_setup_driver` ends (no driver created / driver created but setup
failed / success), whether an exception escapes the per-image handling
into the outer `except` (mcp_image.py:372), and the per-image events of
the extraction loop.  The `finally` block (mcp_image.py:377-383) is the
teardown under study: it runs once on every exit path, calls
`driver.quit()` when a driver exists (exceptions from `quit` are
swallowed by the inner `try`) and clears the field. -/

inductive SelSetup where
  | failNoDriver
  | failAfterDriver
  | ok
deriving Repr, DecidableEq

/-- One step of the extraction loop: a full-resolution image accepted
(mcp_image.py:335-342), an image skipped (no large element, bad src, or
a per-image exception, mcp_image.py:345-347), or a `break` of the outer
loop (no elements / no more pages / an error logged at
mcp_image.py:365-367). -/
inductive SelEvent where
  | found (url title source : String)
  | skip
  | stop
deriving Repr, DecidableEq

/-- The entry recorded for an accepted image (mcp_image.py:335-340). -/
def selFoundEntry (u t s : String) : SearchResult :=
  { url := some u, title := some t, source := some s, status := "success" }

/-- The `while count < max_results` accumulation (mcp_image.py:281-367):
`count` is the length of `image_results`; an entry is appended only
while `count < max_results`; a `stop` event is a `break` of the outer
loop. -/
def selLoop (m : Int) : List SelEvent → List SearchResult → List SearchResult
  | [], acc => acc
  | SelEvent.found u t s :: rest, acc =>
    if (acc.length : Int) ≥ m then acc
    else selLoop m rest (acc ++ [selFoundEntry u t s])
  | SelEvent.skip :: rest, acc =>
    if (acc.length : Int) ≥ m then acc
    else selLoop m rest acc
  | SelEvent.stop :: _, acc => acc

structure SelEnv where
  setup : SelSetup
  events : List SelEvent
  /-- `some msg`: an exception escapes to the outer handler
  (mcp_image.py:372-375), e.g. `driver.get` failing. -/
  outerRaise : Option String
  /-- whether `driver.quit()` itself raises; swallowed by the inner
  `try/except` (mcp_image.py:379-382), so no observable differs. -/
  quitRaises : Bool

/-- Result of one `search_images_selenium` invocation: the returned
list, how many times `driver.quit()` was invoked, whether the `driver`
field is `None` afterwards, and the page navigations issued. -/
structure SelOutcome where
  results : List SearchResult
  quitCalls : Nat
  driverCleared : Bool
  requests : List String
deriving Repr

def search_images_selenium (env : SelEnv) (query : String) (m : Int) : SelOutcome :=
  let searchUrl := "https://www.google.com/search?q=" ++ pyQuote query ++ "&tbm=isch&hl=en"
  match env.setup with
  | .failNoDriver =>
    -- `_setup_driver` returned False without assigning `self.driver`;
    -- the `finally` guard `if self.driver` is falsy: no quit call.
    { results := [{ error := some "Failed to setup Chrome driver. Please ensure Chrome and chromedriver are installed.",
                    status := "failed" }],
      quitCalls := 0, driverCleared := true, requests := [] }
  | .failAfterDriver =>
    -- `_setup_driver` assigned `self.driver` and then failed (e.g.
    -- `set_window_size` raised): same failure entry, but the `finally`
    -- block quits the driver and clears the field.
    { results := [{ error := some "Failed to setup Chrome driver. Please ensure Chrome and chromedriver are installed.",
                    status := "failed" }],
      quitCalls := 1, driverCleared := true, requests := [] }
  | .ok =>
    match env.outerRaise with
    | some msg =>
      { results := [{ error := some ("Selenium Google Images search failed: " ++ msg),
                      status := "failed" }],
        quitCalls := 1, driverCleared := true, requests := [searchUrl] }
    | none =>
      { results := selLoop m env.events [],
        quitCalls := 1, driverCleared := true, requests := [searchUrl] }

/-! ## Orchestrator `GoogleImageSearcher.search_images` and the tool
`search_google_images` (mcp_image.py:385-401, 490-539) -/

structure GEnv where
  selAvailable : Bool
  sel : SelEnv
  simple : SimpleEnv

/-- `search_images` (mcp_image.py:385-401): try Selenium when available;
fall back to the simple method unless the Selenium list contains a
successful entry. -/
def searcher_search_images (env : GEnv) (query : String) (m : Int) : SearchRun :=
  if env.selAvailable then
    let selr := search_images_selenium env.sel query m
    if !selr.results.isEmpty && selr.results.any (fun r => r.status == "success") then
      { results := selr.results, requests := selr.requests }
    else
      let simp := searchSimpleMethod env.simple query m
      { results := simp.results, requests := selr.requests ++ simp.requests }
  else
    searchSimpleMethod env.simple query m

/-- The MCP tool `search_google_images` (mcp_image.py:490-539): reject
empty/whitespace queries, clamp `max_results` to 20, search, and turn an
empty result list into a single failure entry. -/
def search_google_images (env : GEnv) (query : String) (maxResults : Int) : SearchRun :=
  if pyStripIsEmpty query then
    { results := [{ error := some "Search query cannot be empty", status := "failed" }],
      requests := [] }
  else
    let m := min maxResults 20
    let run := searcher_search_images env query m
    if run.results.isEmpty then
      { results := [{ error := some "No images found for the search query", status := "failed" }],
        requests := run.requests }
    else run

/-! ## Azure upload tools (mcp_image.py:403-463, 541-772) -/

/-- Raw payload bytes, abstracted. -/
abbrev Bytes := List Nat

/-- Outcome of `httpx` GET with `raise_for_status()`: `.exn` covers both
network errors and non-2xx statuses (which raise); `.ok` carries the
`content-type` header and the body of a 2xx response. -/
inductive GetResult where
  | exn (msg : String)
  | ok (contentType : Option String) (content : Bytes)
deriving Repr, DecidableEq

/-- Blob-store gateway outcome for one `upload_to_azure_blob` call. -/
inductive AzureResult where
  | ok (blobUrl : String)
  | err (msg : String)
deriving Repr, DecidableEq

structure UploadEnv where
  /-- `datetime.now().strftime("%Y%m%d_%H%M%S")`. -/
  now : String
  /-- `os.path.exists`. -/
  pathExists : String → Bool
  /-- bytes of a local file (reads are assumed to succeed when the path
  exists; a racing deletion would surface through the per-item
  exception handler, which no claim exercises). -/
  readFile : String → Bytes
  /-- `httpx` GET of a source URL. -/
  get : String → GetResult
  /-- blob-store outcome for (blob name, data). -/
  azure : String → Bytes → AzureResult

/-- A blob-store upload call issued to the gateway. -/
structure AzureCall where
  name : String
  data : Bytes
deriving Repr, DecidableEq

/-- Result dict of the helper `upload_to_azure_blob`
(mcp_image.py:403-463). -/
structure AzureUploadResult where
  status : String
  filename : Option String := none
  blob_url : Option String := none
  markdown : Option String := none
  size_bytes : Option Nat := none
  error : Option String := none
deriving Repr, DecidableEq

/-- `upload_to_azure_blob` with raw bytes: issues one put to the
gateway and wraps the outcome (the SAS-URL construction is part of the
opaque gateway result). -/
def upload_to_azure_blob (env : UploadEnv) (data : Bytes) (blobName : String) :
    AzureUploadResult × List AzureCall :=
  match env.azure blobName data with
  | .ok url =>
    ({ status := "success", filename := some blobName, blob_url := some url,
       markdown := some ("![" ++ blobName ++ "](" ++ url ++ ")"),
       size_bytes := some data.length }, [⟨blobName, data⟩])
  | .err msg =>
    ({ status := "failed",
       error := some ("Failed to upload to Azure Blob Storage: " ++ msg) }, [⟨blobName, data⟩])

/-- Outcome dict of the upload tools. -/
structure ToolOutcome where
  source : Option String := none
  blob_url : Option String := none
  markdown : Option String := none
  filename : Option String := none
  size_bytes : Option Nat := none
  error : Option String := none
  status : String
deriving Repr, DecidableEq

/-- Per-item run of an upload tool: the outcome plus instrumentation
(the GET requests issued, the blob-store calls issued, whether the
royalty-free rejection branch executed, and the blob name the item
used, `none` while the royalty branch returns before generating one). -/
structure ItemRun where
  outcome : ToolOutcome
  fetches : List String
  azureCalls : List AzureCall
  policyBlocked : Bool
  blobNameUsed : Option String
deriving Repr, DecidableEq

def allowedExts : List String := ["png", "jpg", "jpeg", "gif", "webp"]

/-- `f"{n:03d}"`. -/
def pad3 (n : Nat) : String :=
  let s := toString n
  if s.length < 3 then String.mk (List.replicate (3 - s.length) '0') ++ s else s

/-- Blob-name generation of `save_images_to_azure` for item `i`
(mcp_image.py:579-595): `{pfx}_{i+1:03d}_{timestamp}.{extension}`, the
extension taken from the URL path (validated against `allowedExts`) or
from an existing local file (lowercased, not validated). -/
def genBlobNameSave (now pfx : String) (i : Nat) (source : String)
    (pathExists : String → Bool) : String :=
  let extension :=
    if pyStartsWith source "http://" || pyStartsWith source "https://" then
      let parsed := pyUrlparse source
      if pyContains parsed.path "." then
        let e := pyLower ((pySplit parsed.path '.').getLastD "")
        if allowedExts.contains e then e else "png"
      else "png"
    else if pathExists source then
      let ext := (pySplitext source).2
      if ext != "" then pyLower (pyTail ext 1) else "png"
    else "png"
  pfx ++ "_" ++ pad3 (i + 1) ++ "_" ++ now ++ "." ++ extension

/-- Blob-name auto-generation of `upload_single_image_to_azure`
(mcp_image.py:702-721): `{name_part}_{timestamp}.{extension}`; for URLs
the extension is validated against `allowedExts`, for local paths it is
only lowercased. -/
def genBlobNameSingle (now source : String) : String :=
  if pyStartsWith source "http://" || pyStartsWith source "https://" then
    let parsed := pyUrlparse source
    let filename := if pyBasename parsed.path != "" then pyBasename parsed.path else "image"
    let namePart := (pySplitext filename).1
    let extension :=
      if pyContains filename "." then
        let e := pyLower ((pySplit filename '.').getLastD "")
        if allowedExts.contains e then e else "png"
      else "png"
    namePart ++ "_" ++ now ++ "." ++ extension
  else
    let filename := pyBasename source
    let namePart := if (pySplitext filename).1 != "" then (pySplitext filename).1 else "image"
    let e := pyLower (pyTail (pySplitext filename).2 1)
    let extension := if e != "" then e else "png"
    namePart ++ "_" ++ now ++ "." ++ extension

/-- Shared tail of both upload tools: wrap an `upload_to_azure_blob`
result into the tool outcome (mcp_image.py:634-650, 749-763). -/
def wrapUploadResult (source : String) (ur : AzureUploadResult) : ToolOutcome :=
  if ur.status == "success" then
    { source := some source, blob_url := ur.blob_url, markdown := ur.markdown,
      filename := ur.filename, size_bytes := ur.size_bytes, status := "success" }
  else
    { source := some source, error := ur.error, status := "failed" }

/-- The loop body of `save_images_to_azure` for one source at index `i`
(mcp_image.py:568-659). -/
def processItemSave (env : UploadEnv) (pfx : String) (i : Nat) (source : String) : ItemRun :=
  if (pyStartsWith source "http://" || pyStartsWith source "https://")
      && is_royalty_free_url source then
    { outcome := { source := some source,
                   error := some "Royalty-free image sources are not allowed.",
                   status := "failed" },
      fetches := [], azureCalls := [], policyBlocked := true, blobNameUsed := none }
  else
    let blobName := genBlobNameSave env.now pfx i source env.pathExists
    if pyStartsWith source "http://" || pyStartsWith source "https://" then
      match env.get source with
      | .exn msg =>
        { outcome := { source := some source,
                       error := some ("Error processing " ++ source ++ ": " ++ msg),
                       status := "failed" },
          fetches := [source], azureCalls := [], policyBlocked := false,
          blobNameUsed := some blobName }
      | .ok ct content =>
        if !pyStartsWith (ct.getD "") "image/" then
          { outcome := { source := some source,
                         error := some ("Not an image (got " ++ ct.getD "" ++ ")"),
                         status := "failed" },
            fetches := [source], azureCalls := [], policyBlocked := false,
            blobNameUsed := some blobName }
        else
          let (ur, calls) := upload_to_azure_blob env content blobName
          { outcome := wrapUploadResult source ur,
            fetches := [source], azureCalls := calls, policyBlocked := false,
            blobNameUsed := some blobName }
    else if env.pathExists source then
      let (ur, calls) := upload_to_azure_blob env (env.readFile source) blobName
      { outcome := wrapUploadResult source ur,
        fetches := [], azureCalls := calls, policyBlocked := false,
        blobNameUsed := some blobName }
    else
      { outcome := { source := some source,
                     error := some "File not found and not a valid URL",
                     status := "failed" },
        fetches := [], azureCalls := [], policyBlocked := false,
        blobNameUsed := some blobName }

/-- The `for i, source in enumerate(image_sources)` loop, accumulating
one `ItemRun` per source. -/
def saveLoop (env : UploadEnv) (pfx : String) : Nat → List String → List ItemRun
  | _, [] => []
  | i, s :: rest => processItemSave env pfx i s :: saveLoop env pfx (i + 1) rest

/-- The MCP tool `save_images_to_azure` (mcp_image.py:541-670). -/
def save_images_to_azure (env : UploadEnv) (image_sources : List String)
    (pfx : String) : List ToolOutcome :=
  if image_sources.isEmpty then
    [{ error := some "No image sources provided", status := "failed" }]
  else
    (saveLoop env pfx 0 image_sources).map (fun r => r.outcome)

/-- The MCP tool `upload_single_image_to_azure` (mcp_image.py:672-772). -/
def upload_single_image_to_azure (env : UploadEnv) (image_source : String)
    (blobName : Option String) : ItemRun :=
  if (pyStartsWith image_source "http://" || pyStartsWith image_source "https://")
      && is_royalty_free_url image_source then
    { outcome := { source := some image_source,
                   error := some "Royalty-free image sources are not allowed.",
                   status := "failed" },
      fetches := [], azureCalls := [], policyBlocked := true, blobNameUsed := none }
  else
    let bn := blobName.getD (genBlobNameSingle env.now image_source)
    if pyStartsWith image_source "http://" || pyStartsWith image_source "https://" then
      match env.get image_source with
      | .exn msg =>
        { outcome := { source := some image_source,
                       error := some ("Failed to upload image: " ++ msg),
                       status := "failed" },
          fetches := [image_source], azureCalls := [], policyBlocked := false,
          blobNameUsed := some bn }
      | .ok ct content =>
        if !pyStartsWith (ct.getD "") "image/" then
          { outcome := { source := some image_source,
                         error := some ("Not an image (got " ++ ct.getD "" ++ ")"),
                         status := "failed" },
            fetches := [image_source], azureCalls := [], policyBlocked := false,
            blobNameUsed := some bn }
        else
          let (ur, calls) := upload_to_azure_blob env content bn
          { outcome := wrapUploadResult image_source ur,
            fetches := [image_source], azureCalls := calls, policyBlocked := false,
            blobNameUsed := some bn }
    else if !env.pathExists image_source then
      { outcome := { source := some image_source,
                     error := some "File not found",
                     status := "failed" },
        fetches := [], azureCalls := [], policyBlocked := false,
        blobNameUsed := some bn }
    else
      let (ur, calls) := upload_to_azure_blob env (env.readFile image_source) bn
      { outcome := wrapUploadResult image_source ur,
        fetches := [], azureCalls := calls, policyBlocked := false,
        blobNameUsed := some bn }

/-! ## Claim-side predicates -/

/-- Formalises the claims' "HEAD probe passes validation": a 200
response whose content type begins with `image/`. -/
def probeValid : ProbeResult → Bool
  | .exn => false
  | .resp st ct => st == 200 && pyStartsWith (ct.getD "") "image/"

/-- Formalises the claims' "well-formed absolute http(s) image URL":
an `http(s)://` URL mentioning one of the image extensions. -/
def specWellFormedImageUrl (u : String) : Bool :=
  (pyStartsWith u "http://" || pyStartsWith u "https://") &&
  imageExtMarkers.any (fun e => pyContains (pyLower u) e)

/-- Formalises the claims' "host matches one of the royalty-free
domains": the netloc is the domain or a subdomain of it. -/
def hostMatchesBlockedDomain (source : String) : Prop :=
  ∃ d ∈ ROYALTY_FREE_DOMAINS,
    (pyUrlparse source).netloc = d ∨
      pyEndsWith (pyUrlparse source).netloc ("." ++ d) = true

/-! ## Concrete environments used by counterexamples and witnesses -/

def demoSimpleEnv : SimpleEnv :=
  { fetch1 := none, fetch2 := none, orderSet := id,
    orderSet_perm := fun l => List.Perm.refl l, probe := fun _ => .exn }

def demoSelEnv : SelEnv :=
  { setup := .ok,
    events := [.found "http://img.example.com/a.jpg" "a" "http://example.com", .stop],
    outerRaise := none, quitRaises := false }

def demoGEnv : GEnv :=
  { selAvailable := false,
    sel := { demoSelEnv with setup := .failNoDriver },
    simple := demoSimpleEnv }

def demoUploadEnv : UploadEnv :=
  { now := "20240101_120000", pathExists := fun _ => true,
    readFile := fun _ => [1, 2], get := fun _ => .exn "boom",
    azure := fun _ _ => .ok "https://sas.example/x" }

def demoHtmlEnv : UploadEnv :=
  { demoUploadEnv with get := fun _ => .ok (some "text/html") [9] }

def demoProbeHtml : String → ProbeResult := fun _ => .resp 200 (some "text/html")

def demoProbeExn : String → ProbeResult := fun _ => .exn

/-! # Theorems -/

/-! ## Shared string lemmas -/

theorem toList_append (a b : String) : (a ++ b).toList = a.toList ++ b.toList := by
  simp [String.toList]

theorem pyContains_of_infix {s pat : String} (h : pat.toList <:+: s.toList) :
    pyContains s pat = true := by
  simp [pyContains]
  exact h

theorem pyContains_append_mid (a mid b : String) :
    pyContains (a ++ mid ++ b) mid = true := by
  apply pyContains_of_infix
  rw [toList_append, toList_append]
  exact ⟨a.toList, b.toList, rfl⟩

theorem pyContains_mid₂ (a mid b c : String) :
    pyContains (a ++ mid ++ b ++ c) mid = true := by
  apply pyContains_of_infix
  simp only [toList_append]
  exact ⟨a.toList, b.toList ++ c.toList, by simp⟩

theorem pyEndsWith_append (a b : String) : pyEndsWith (a ++ b) b = true := by
  simp [pyEndsWith, toList_append]

theorem pyEndsWith_append₂ (a b c : String) :
    pyEndsWith (a ++ b ++ c) (b ++ c) = true := by
  simp [pyEndsWith, toList_append]

/-! ## C2 — empty or whitespace-only query (confirmed)

mcp_image.py:513-514 rejects the query before any searcher is built, so
the returned run is a single failure entry with an empty request
trace. -/

/-- C2: for every environment and every `max_results`, an empty or
whitespace-only query makes `search_google_images` return a
single-element failure list without issuing any network request. -/
theorem c2_empty_query_failure (env : GEnv) (query : String) (maxResults : Int)
    (h : pyStripIsEmpty query = true) :
    search_google_images env query maxResults =
      { results := [{ error := some "Search query cannot be empty", status := "failed" }],
        requests := [] } := by
  simp [search_google_images, h]

theorem c2_witness :
    pyStripIsEmpty "  \t " = true ∧
    search_google_images demoGEnv "  \t " 10 =
      { results := [{ error := some "Search query cannot be empty", status := "failed" }],
        requests := [] } :=
  ⟨by decide, c2_empty_query_failure demoGEnv "  \t " 10 (by decide)⟩

/-! ## C9 — browser-session teardown (confirmed)

The `finally` block at mcp_image.py:377-383 runs exactly once on every
exit path of `search_images_selenium`; whenever the driver was set up
(all three exit paths named by the claim presuppose a started session),
`driver.quit()` is invoked exactly once and the field is cleared,
regardless of whether the body completed, raised, or broke early. -/

/-- C9: on every exit path of a started browser session — normal
completion, an exception escaping the extraction loop, or early loop
termination — the teardown quits the driver exactly once and clears the
driver field. -/
theorem c9_selenium_teardown (env : SelEnv) (query : String) (m : Int)
    (h : env.setup = SelSetup.ok) :
    (search_images_selenium env query m).quitCalls = 1 ∧
    (search_images_selenium env query m).driverCleared = true := by
  cases h2 : env.outerRaise <;> simp [search_images_selenium, h, h2]

theorem c9_witness :
    demoSelEnv.setup = SelSetup.ok ∧
    (search_images_selenium demoSelEnv "cat" 5).quitCalls = 1 ∧
    (search_images_selenium demoSelEnv "cat" 5).driverCleared = true :=
  ⟨rfl, (c9_selenium_teardown demoSelEnv "cat" 5 rfl).1,
    (c9_selenium_teardown demoSelEnv "cat" 5 rfl).2⟩

/-! ## Royalty-free policy: shared lemmas for C3 and C10 -/

theorem processItemSave_policyBlocked (env : UploadEnv) (pfx : String) (i : Nat)
    (source : String) :
    (processItemSave env pfx i source).policyBlocked =
      ((pyStartsWith source "http://" || pyStartsWith source "https://")
        && is_royalty_free_url source) := by
  unfold processItemSave
  split
  · rename_i hc
    simp [hc]
  · rename_i hc
    rw [Bool.not_eq_true] at hc
    rw [hc]
    repeat' split
    all_goals rfl

theorem uploadSingle_policyBlocked (env : UploadEnv) (source : String)
    (bn : Option String) :
    (upload_single_image_to_azure env source bn).policyBlocked =
      ((pyStartsWith source "http://" || pyStartsWith source "https://")
        && is_royalty_free_url source) := by
  unfold upload_single_image_to_azure
  split
  · rename_i hc
    simp [hc]
  · rename_i hc
    rw [Bool.not_eq_true] at hc
    rw [hc]
    repeat' split
    all_goals rfl

theorem royalty_of_hostMatches {source : String}
    (hdom : hostMatchesBlockedDomain source) :
    is_royalty_free_url source = true := by
  obtain ⟨d, hd, hcase⟩ := hdom
  have hsub : pyContains (pyUrlparse source).netloc d = true := by
    apply pyContains_of_infix
    rcases hcase with h | h
    · rw [h]
    · have hsuf : ("." ++ d).toList <:+ (pyUrlparse source).netloc.toList := by
        simpa [pyEndsWith] using h
      have hstep : d.toList <:+ ("." ++ d).toList := by
        rw [toList_append]
        exact List.suffix_append _ _
      exact (hstep.trans hsuf).isInfix
  simp only [is_royalty_free_url, List.any_eq_true]
  exact ⟨d, hd, hsub⟩

/-! ## C3 — royalty-free sources rejected without a fetch (confirmed)

mcp_image.py:571-577 and 694-699 test `is_royalty_free_url` before any
blob-name generation or network traffic; a matching host yields the
policy failure entry with empty fetch and blob-store traces. -/

/-- C3: a source URL whose host is one of the blocked royalty-free
domains (or a subdomain of one) makes both `save_images_to_azure`
(per item) and `upload_single_image_to_azure` return a failed outcome
carrying the policy error message, with no network fetch and no
blob-store call. -/
theorem c3_royalty_free_rejected (env : UploadEnv) (pfx : String) (i : Nat)
    (source : String) (bn : Option String)
    (hscheme : (pyStartsWith source "http://" || pyStartsWith source "https://") = true)
    (hdom : hostMatchesBlockedDomain source) :
    processItemSave env pfx i source =
      { outcome := { source := some source,
                     error := some "Royalty-free image sources are not allowed.",
                     status := "failed" },
        fetches := [], azureCalls := [], policyBlocked := true, blobNameUsed := none } ∧
    upload_single_image_to_azure env source bn =
      { outcome := { source := some source,
                     error := some "Royalty-free image sources are not allowed.",
                     status := "failed" },
        fetches := [], azureCalls := [], policyBlocked := true, blobNameUsed := none } := by
  have hcond : ((pyStartsWith source "http://" || pyStartsWith source "https://")
      && is_royalty_free_url source) = true := by
    rw [hscheme, royalty_of_hostMatches hdom]
    rfl
  constructor <;> simp [processItemSave, upload_single_image_to_azure, hcond]

theorem c3_witness :
    (pyStartsWith "https://images.unsplash.com/photo.jpg" "http://"
      || pyStartsWith "https://images.unsplash.com/photo.jpg" "https://") = true ∧
    processItemSave demoUploadEnv "image" 0 "https://images.unsplash.com/photo.jpg" =
      { outcome := { source := some "https://images.unsplash.com/photo.jpg",
                     error := some "Royalty-free image sources are not allowed.",
                     status := "failed" },
        fetches := [], azureCalls := [], policyBlocked := true, blobNameUsed := none } ∧
    upload_single_image_to_azure demoUploadEnv "https://images.unsplash.com/photo.jpg" none =
      { outcome := { source := some "https://images.unsplash.com/photo.jpg",
                     error := some "Royalty-free image sources are not allowed.",
                     status := "failed" },
        fetches := [], azureCalls := [], policyBlocked := true, blobNameUsed := none } := by
  have h := c3_royalty_free_rejected demoUploadEnv "image" 0
    "https://images.unsplash.com/photo.jpg" none (by decide)
    ⟨"unsplash.com", by decide, Or.inr (by decide)⟩
  exact ⟨by decide, h.1, h.2⟩

/-! ## C10 — exact characterisation of the policy check (confirmed)

The rejection fires iff the source starts with `http://` or `https://`
and the parsed netloc contains a blocked domain as a substring
(`is_royalty_free_url`, mcp_image.py:38-40); local paths are never
checked, and when it fires the item fails with the policy error and no
traffic. -/

/-- C10: the royalty-free rejection branch executes in both upload
tools iff the source has an http(s) scheme and `is_royalty_free_url`
holds (a substring test of the blocked domains against the netloc);
non-http(s) sources are never policy-checked; and when the branch
fires, the outcome is the policy failure with empty fetch and
blob-store traces. -/
theorem c10_policy_fires_iff (env : UploadEnv) (pfx : String) (i : Nat)
    (source : String) (bn : Option String) :
    ((processItemSave env pfx i source).policyBlocked =
      ((pyStartsWith source "http://" || pyStartsWith source "https://")
        && is_royalty_free_url source)) ∧
    ((upload_single_image_to_azure env source bn).policyBlocked =
      ((pyStartsWith source "http://" || pyStartsWith source "https://")
        && is_royalty_free_url source)) ∧
    ((pyStartsWith source "http://" || pyStartsWith source "https://") = false →
      (processItemSave env pfx i source).policyBlocked = false ∧
      (upload_single_image_to_azure env source bn).policyBlocked = false) ∧
    ((processItemSave env pfx i source).policyBlocked = true →
      processItemSave env pfx i source =
        { outcome := { source := some source,
                       error := some "Royalty-free image sources are not allowed.",
                       status := "failed" },
          fetches := [], azureCalls := [], policyBlocked := true, blobNameUsed := none }) ∧
    ((upload_single_image_to_azure env source bn).policyBlocked = true →
      upload_single_image_to_azure env source bn =
        { outcome := { source := some source,
                       error := some "Royalty-free image sources are not allowed.",
                       status := "failed" },
          fetches := [], azureCalls := [], policyBlocked := true, blobNameUsed := none }) := by
  refine ⟨processItemSave_policyBlocked env pfx i source,
    uploadSingle_policyBlocked env source bn, ?_, ?_, ?_⟩
  · intro hs
    rw [processItemSave_policyBlocked, uploadSingle_policyBlocked, hs]
    exact ⟨rfl, rfl⟩
  · intro hp
    rw [processItemSave_policyBlocked] at hp
    simp [processItemSave, hp]
  · intro hp
    rw [uploadSingle_policyBlocked] at hp
    simp [upload_single_image_to_azure, hp]

theorem c10_witness :
    ((pyStartsWith "pexels.com/photo.jpg" "http://"
      || pyStartsWith "pexels.com/photo.jpg" "https://") = false ∧
      (processItemSave demoUploadEnv "image" 0 "pexels.com/photo.jpg").policyBlocked = false ∧
      (upload_single_image_to_azure demoUploadEnv "pexels.com/photo.jpg" none).policyBlocked
        = false) ∧
    (upload_single_image_to_azure demoUploadEnv
        "https://notunsplash.com.evil.org/x.jpg" none).policyBlocked = true := by
  constructor
  · refine ⟨by decide, ?_⟩
    exact (c10_policy_fires_iff demoUploadEnv "image" 0 "pexels.com/photo.jpg" none).2.2.1
      (by decide)
  · rw [(c10_policy_fires_iff demoUploadEnv "image" 0
      "https://notunsplash.com.evil.org/x.jpg" none).2.1]
    decide

/-! ## C6 — non-image content type rejected before any blob call
(confirmed)

mcp_image.py:604-612 and 729-736 inspect the `content-type` header of
the fetched body and fail the item before `upload_to_azure_blob` is
reached. -/

/-- C6: when an http(s) source (not royalty-blocked) is fetched and the
response content type does not start with `image/`, both upload tools
return a failed outcome with the validation error and issue no
blob-store call. -/
theorem c6_non_image_rejected (env : UploadEnv) (pfx : String) (i : Nat)
    (source : String) (bn : Option String) (ct : Option String) (content : Bytes)
    (hscheme : (pyStartsWith source "http://" || pyStartsWith source "https://") = true)
    (hroyal : is_royalty_free_url source = false)
    (hget : env.get source = GetResult.ok ct content)
    (hct : pyStartsWith (ct.getD "") "image/" = false) :
    processItemSave env pfx i source =
      { outcome := { source := some source,
                     error := some ("Not an image (got " ++ ct.getD "" ++ ")"),
                     status := "failed" },
        fetches := [source], azureCalls := [], policyBlocked := false,
        blobNameUsed := some (genBlobNameSave env.now pfx i source env.pathExists) } ∧
    upload_single_image_to_azure env source bn =
      { outcome := { source := some source,
                     error := some ("Not an image (got " ++ ct.getD "" ++ ")"),
                     status := "failed" },
        fetches := [source], azureCalls := [], policyBlocked := false,
        blobNameUsed := some (bn.getD (genBlobNameSingle env.now source)) } := by
  have hcond : ((pyStartsWith source "http://" || pyStartsWith source "https://")
      && is_royalty_free_url source) = false := by
    rw [hroyal]
    simp
  constructor <;>
    simp [processItemSave, upload_single_image_to_azure, hcond, hroyal, hscheme, hget, hct]

theorem c6_witness :
    processItemSave demoHtmlEnv "image" 0 "http://site.com/pic.JPG" =
      { outcome := { source := some "http://site.com/pic.JPG",
                     error := some ("Not an image (got " ++ (some "text/html").getD "" ++ ")"),
                     status := "failed" },
        fetches := ["http://site.com/pic.JPG"], azureCalls := [], policyBlocked := false,
        blobNameUsed := some (genBlobNameSave demoHtmlEnv.now "image" 0
          "http://site.com/pic.JPG" demoHtmlEnv.pathExists) } ∧
    upload_single_image_to_azure demoHtmlEnv "http://site.com/pic.JPG" none =
      { outcome := { source := some "http://site.com/pic.JPG",
                     error := some ("Not an image (got " ++ (some "text/html").getD "" ++ ")"),
                     status := "failed" },
        fetches := ["http://site.com/pic.JPG"], azureCalls := [], policyBlocked := false,
        blobNameUsed := some ((none : Option String).getD
          (genBlobNameSingle demoHtmlEnv.now "http://site.com/pic.JPG")) } :=
  c6_non_image_rejected demoHtmlEnv "image" 0 "http://site.com/pic.JPG" none
    (some "text/html") [9] (by decide) (by decide) rfl (by decide)

/-! ## C8 — one outcome per batch item (corrected)

The loop at mcp_image.py:568-659 appends exactly one result per source,
and each result is a function of the source, its index, and the ambient
environment only.  However, an *empty* input list is answered with a
single failure entry (mcp_image.py:563-564), so "exactly one outcome
per input item" fails at `[]`; it holds for every non-empty list. -/

theorem saveLoop_outcomes (env : UploadEnv) (pfx : String) :
    ∀ (sources : List String) (n : Nat),
      (saveLoop env pfx n sources).map (fun r => r.outcome) =
        sources.mapIdx (fun i s => (processItemSave env pfx (n + i) s).outcome) := by
  intro sources
  induction sources with
  | nil => intro n; simp [saveLoop]
  | cons s rest ih =>
    intro n
    simp only [saveLoop, List.map_cons, List.mapIdx_cons, ih (n + 1), Nat.add_zero]
    have heq : (fun (i : Nat) (a : String) => (processItemSave env pfx (n + 1 + i) a).outcome)
        = fun (i : Nat) (a : String) => (processItemSave env pfx (n + (i + 1)) a).outcome := by
      funext i a
      have harith : n + 1 + i = n + (i + 1) := by omega
      rw [harith]
    rw [heq]

/-- C8 counterexample: on the empty input list the tool returns one
failure entry, not zero outcomes. -/
theorem c8_counterexample :
    (save_images_to_azure demoUploadEnv [] "image").length ≠ ([] : List String).length := by
  decide

/-- C8 (amended to non-empty batches): for every non-empty input list
the tool returns exactly one outcome per input item, and the i-th
outcome is the per-item function of the i-th source alone — hence
independent of whether sibling items failed. -/
theorem c8_per_item_outcomes (env : UploadEnv) (pfx : String) (sources : List String)
    (h : sources ≠ []) :
    save_images_to_azure env sources pfx =
      sources.mapIdx (fun i s => (processItemSave env pfx i s).outcome) ∧
    (save_images_to_azure env sources pfx).length = sources.length := by
  have key : save_images_to_azure env sources pfx =
      sources.mapIdx (fun i s => (processItemSave env pfx i s).outcome) := by
    unfold save_images_to_azure
    rw [if_neg (by simpa using h)]
    rw [saveLoop_outcomes]
    simp
  exact ⟨key, by simp [key]⟩

theorem c8_witness :
    save_images_to_azure demoUploadEnv ["nofile", "other"] "image" =
      (["nofile", "other"]).mapIdx
        (fun i s => (processItemSave demoUploadEnv "image" i s).outcome) ∧
    (save_images_to_azure demoUploadEnv ["nofile", "other"] "image").length =
      (["nofile", "other"] : List String).length :=
  c8_per_item_outcomes demoUploadEnv "image" ["nofile", "other"] (by simp)

/-! ## C7 — auto-generated blob names (corrected)

mcp_image.py:579-595 and 701-721: generated names embed the timestamp
and end with the (lowercased) source extension; the "replace by `png`
when the extension is not one of {png, jpg, jpeg, gif, webp}" rule is
applied to URL sources only — for local paths the extension is
lowercased but *not* validated against the set (e.g. `photo.txt` keeps
`.txt`), and an absent extension defaults to `png`. -/

/-- C7 counterexample: for the existing local path `photo.txt` (whose
extension `txt` is not in the allowed set) the auto-generated name ends
in `.txt`, not `.png` as the claim requires. -/
theorem c7_counterexample :
    (upload_single_image_to_azure demoUploadEnv "photo.txt" none).blobNameUsed =
      some "photo_20240101_120000.txt" ∧
    allowedExts.contains "txt" = false ∧
    pyEndsWith "photo_20240101_120000.txt" ".png" = false ∧
    pyEndsWith "photo_20240101_120000.txt" ".txt" = true := by
  decide

/-- C7 (amended): every auto-generated blob name embeds the timestamp;
for URL sources the name ends with the lowercased URL extension when it
belongs to {png, jpg, jpeg, gif, webp} and with `.png` when the
extension is absent or not in the set; for local-path sources the
extension is lowercased but not validated against the set (defaulting
to `png` only when absent); and both upload pipelines use exactly these
generated names whenever the policy branch does not fire. -/
theorem c7_blob_name_generation :
    (∀ (now pfx : String) (i : Nat) (source : String) (pe : String → Bool),
      pyContains (genBlobNameSave now pfx i source pe) now = true) ∧
    (∀ now source : String, pyContains (genBlobNameSingle now source) now = true) ∧
    (∀ (now pfx : String) (i : Nat) (source : String) (pe : String → Bool),
      (pyStartsWith source "http://" || pyStartsWith source "https://") = true →
      (pyContains (pyUrlparse source).path "." = true →
        (pyLower ((pySplit (pyUrlparse source).path '.').getLastD "") ∈ allowedExts →
          pyEndsWith (genBlobNameSave now pfx i source pe)
            ("." ++ pyLower ((pySplit (pyUrlparse source).path '.').getLastD "")) = true) ∧
        (pyLower ((pySplit (pyUrlparse source).path '.').getLastD "") ∉ allowedExts →
          pyEndsWith (genBlobNameSave now pfx i source pe) ".png" = true)) ∧
      (pyContains (pyUrlparse source).path "." = false →
        pyEndsWith (genBlobNameSave now pfx i source pe) ".png" = true)) ∧
    (∀ now source : String,
      (pyStartsWith source "http://" || pyStartsWith source "https://") = true →
      ∀ filename : String,
        filename = (if pyBasename (pyUrlparse source).path != ""
          then pyBasename (pyUrlparse source).path else "image") →
      (pyContains filename "." = true →
        (pyLower ((pySplit filename '.').getLastD "") ∈ allowedExts →
          pyEndsWith (genBlobNameSingle now source)
            ("." ++ pyLower ((pySplit filename '.').getLastD "")) = true) ∧
        (pyLower ((pySplit filename '.').getLastD "") ∉ allowedExts →
          pyEndsWith (genBlobNameSingle now source) ".png" = true)) ∧
      (pyContains filename "." = false →
        pyEndsWith (genBlobNameSingle now source) ".png" = true)) ∧
    (∀ now source : String,
      (pyStartsWith source "http://" || pyStartsWith source "https://") = false →
      (pyLower (pyTail (pySplitext (pyBasename source)).2 1) = "" →
        pyEndsWith (genBlobNameSingle now source) ".png" = true) ∧
      (pyLower (pyTail (pySplitext (pyBasename source)).2 1) ≠ "" →
        pyEndsWith (genBlobNameSingle now source)
          ("." ++ pyLower (pyTail (pySplitext (pyBasename source)).2 1)) = true)) ∧
    (∀ (now pfx : String) (i : Nat) (source : String) (pe : String → Bool),
      (pyStartsWith source "http://" || pyStartsWith source "https://") = false →
      (pe source = true →
        ((pySplitext source).2 = "" →
          pyEndsWith (genBlobNameSave now pfx i source pe) ".png" = true) ∧
        ((pySplitext source).2 ≠ "" →
          pyEndsWith (genBlobNameSave now pfx i source pe)
            ("." ++ pyLower (pyTail (pySplitext source).2 1)) = true)) ∧
      (pe source = false →
        pyEndsWith (genBlobNameSave now pfx i source pe) ".png" = true)) ∧
    (∀ (env : UploadEnv) (pfx : String) (i : Nat) (source : String),
      ((pyStartsWith source "http://" || pyStartsWith source "https://")
        && is_royalty_free_url source) = false →
      (processItemSave env pfx i source).blobNameUsed =
        some (genBlobNameSave env.now pfx i source env.pathExists)) ∧
    (∀ (env : UploadEnv) (source : String),
      ((pyStartsWith source "http://" || pyStartsWith source "https://")
        && is_royalty_free_url source) = false →
      (upload_single_image_to_azure env source none).blobNameUsed =
        some (genBlobNameSingle env.now source)) := by
  have hpng : (".png" : String) = "." ++ "png" := rfl
  refine ⟨?_, ?_, ?_, ?_, ?_, ?_, ?_, ?_⟩
  · intro now pfx i source pe
    unfold genBlobNameSave
    exact pyContains_mid₂ (pfx ++ "_" ++ pad3 (i + 1) ++ "_") now "." _
  · intro now source
    unfold genBlobNameSingle
    split <;> exact pyContains_mid₂ _ now "." _
  · intro now pfx i source pe hscheme
    refine ⟨fun hdot => ⟨fun hallow => ?_, fun hallow => ?_⟩, fun hdot => ?_⟩
    · unfold genBlobNameSave
      simp only [hscheme, hdot, if_true]
      rw [if_pos (show allowedExts.contains _ = true by simpa using hallow)]
      exact pyEndsWith_append₂ _ "." _
    · unfold genBlobNameSave
      simp only [hscheme, hdot, if_true]
      rw [if_neg (show ¬allowedExts.contains _ = true by simpa using hallow), hpng]
      exact pyEndsWith_append₂ _ "." _
    · unfold genBlobNameSave
      simp only [hscheme, hdot, if_true, Bool.false_eq_true, if_false]
      rw [hpng]
      exact pyEndsWith_append₂ _ "." _
  · intro now source hscheme filename hfn
    refine ⟨fun hdot => ⟨fun hallow => ?_, fun hallow => ?_⟩, fun hdot => ?_⟩
    · unfold genBlobNameSingle
      simp only [hscheme, if_true]
      rw [← hfn]
      simp only [hdot, if_true]
      rw [if_pos (show allowedExts.contains _ = true by simpa using hallow)]
      exact pyEndsWith_append₂ _ "." _
    · unfold genBlobNameSingle
      simp only [hscheme, if_true]
      rw [← hfn]
      simp only [hdot, if_true]
      rw [if_neg (show ¬allowedExts.contains _ = true by simpa using hallow), hpng]
      exact pyEndsWith_append₂ _ "." _
    · unfold genBlobNameSingle
      simp only [hscheme, if_true]
      rw [← hfn]
      simp only [hdot, Bool.false_eq_true, if_false]
      rw [hpng]
      exact pyEndsWith_append₂ _ "." _
  · intro now source hscheme
    refine ⟨fun he => ?_, fun he => ?_⟩
    · unfold genBlobNameSingle
      simp only [hscheme, Bool.false_eq_true, if_false, he]
      rw [hpng]
      exact pyEndsWith_append₂ _ "." _
    · unfold genBlobNameSingle
      simp only [hscheme, Bool.false_eq_true, if_false]
      rw [if_pos (show (pyLower (pyTail (pySplitext (pyBasename source)).2 1) != "") = true
        by simpa using he)]
      exact pyEndsWith_append₂ _ "." _
  · intro now pfx i source pe hscheme
    refine ⟨fun hpe => ⟨fun he => ?_, fun he => ?_⟩, fun hpe => ?_⟩
    · unfold genBlobNameSave
      simp only [hscheme, Bool.false_eq_true, if_false, hpe, if_true, he]
      rw [hpng]
      exact pyEndsWith_append₂ _ "." _
    · unfold genBlobNameSave
      simp only [hscheme, Bool.false_eq_true, if_false, hpe, if_true]
      rw [if_pos (show ((pySplitext source).2 != "") = true by simpa using he)]
      exact pyEndsWith_append₂ _ "." _
    · unfold genBlobNameSave
      simp only [hscheme, Bool.false_eq_true, if_false, hpe]
      rw [hpng]
      exact pyEndsWith_append₂ _ "." _
  · intro env pfx i source hcond
    unfold processItemSave
    rw [if_neg (by simp [hcond])]
    repeat' split
    all_goals rfl
  · intro env source hcond
    unfold upload_single_image_to_azure
    rw [if_neg (by simp [hcond])]
    repeat' split
    all_goals rfl

theorem c7_witness :
    pyContains (genBlobNameSingle "20240101_120000" "http://site.com/pic.JPG")
      "20240101_120000" = true ∧
    pyEndsWith (genBlobNameSingle "20240101_120000" "http://site.com/pic.JPG")
      ("." ++ pyLower ((pySplit "pic.JPG" '.').getLastD "")) = true := by
  refine ⟨c7_blob_name_generation.2.1 "20240101_120000" "http://site.com/pic.JPG", ?_⟩
  exact (c7_blob_name_generation.2.2.2.1 "20240101_120000" "http://site.com/pic.JPG"
    (by decide) "pic.JPG" (by decide)).1 (by decide) |>.1 (by decide)

/-! ## C5 — probe failures in the HTTP fallback (corrected)

mcp_image.py:199-240: only a probe that *raises* lands in the `except`
branch that appends the "(unvalidated)" entry; a HEAD request that
*succeeds* but returns a non-200 status or a non-image content type
falls through both `if`s and the URL is silently dropped. -/

theorem svlStep_mem (probe : String → ProbeResult) (m : Int) (u : String)
    (acc : List SearchResult) (r : SearchResult) (h : r ∈ acc) :
    r ∈ svlStep probe m u acc := by
  unfold svlStep
  split
  · split
    · exact List.mem_append_left _ h
    · exact h
  · split
    · exact List.mem_append_left _ h
    · exact h

theorem svlStep_length (probe : String → ProbeResult) (m : Int) (u : String)
    (acc : List SearchResult) :
    acc.length ≤ (svlStep probe m u acc).length ∧
      (svlStep probe m u acc).length ≤ acc.length + 1 := by
  unfold svlStep
  constructor <;> (repeat' split) <;> simp

theorem svlStep_status (probe : String → ProbeResult) (m : Int) (u : String)
    (acc : List SearchResult) (r : SearchResult) (h : r ∈ svlStep probe m u acc) :
    r ∈ acc ∨ r.status = "success" := by
  unfold svlStep at h
  split at h
  · split at h
    · rcases List.mem_append.mp h with h1 | h2
      · exact Or.inl h1
      · simp at h2
        subst h2
        exact Or.inr rfl
    · exact Or.inl h
  · split at h
    · rcases List.mem_append.mp h with h1 | h2
      · exact Or.inl h1
      · simp at h2
        subst h2
        exact Or.inr rfl
    · exact Or.inl h

theorem svlStep_drop (probe : String → ProbeResult) (m : Int) (u : String)
    (acc : List SearchResult) (st : Nat) (ct : Option String)
    (hprobe : probe u = ProbeResult.resp st ct)
    (hbad : (st == 200 && pyStartsWith (ct.getD "") "image/") = false) :
    svlStep probe m u acc = acc := by
  simp only [svlStep, hprobe, hbad, Bool.false_eq_true, if_false]

theorem svl_cons_ne (probe : String → ProbeResult) (m : Int) (u : String)
    (rest : List String) (acc : List SearchResult)
    (hg : ¬(acc.length : Int) ≥ m) :
    simpleValidateLoop probe m (u :: rest) acc =
      ((simpleValidateLoop probe m rest (svlStep probe m u acc)).1,
        u :: (simpleValidateLoop probe m rest (svlStep probe m u acc)).2) := by
  conv_lhs => rw [simpleValidateLoop]
  rw [if_neg hg]

theorem svl_mem_acc (probe : String → ProbeResult) (m : Int) :
    ∀ (urls : List String) (acc : List SearchResult) (r : SearchResult),
      r ∈ acc → r ∈ (simpleValidateLoop probe m urls acc).1 := by
  intro urls
  induction urls with
  | nil => intro acc r h; simpa [simpleValidateLoop] using h
  | cons u rest ih =>
    intro acc r h
    by_cases hg : (acc.length : Int) ≥ m
    · unfold simpleValidateLoop
      rw [if_pos hg]
      exact h
    · rw [svl_cons_ne probe m u rest acc hg]
      exact ih _ r (svlStep_mem probe m u acc r h)

theorem svl_length_le (probe : String → ProbeResult) (m : Int) :
    ∀ (urls : List String) (acc : List SearchResult),
      (simpleValidateLoop probe m urls acc).1.length ≤ max acc.length m.toNat := by
  intro urls
  induction urls with
  | nil =>
    intro acc
    simp [simpleValidateLoop]
  | cons u rest ih =>
    intro acc
    by_cases hg : (acc.length : Int) ≥ m
    · unfold simpleValidateLoop
      rw [if_pos hg]
      exact Nat.le_max_left acc.length m.toNat
    · rw [svl_cons_ne probe m u rest acc hg]
      have h1 := svlStep_length probe m u acc
      have h2 := ih (svlStep probe m u acc)
      have hlt : acc.length < m.toNat := by
        simp only [not_le] at hg
        omega
      simp only at h2 ⊢
      omega

theorem svl_status (probe : String → ProbeResult) (m : Int) :
    ∀ (urls : List String) (acc : List SearchResult) (r : SearchResult),
      r ∈ (simpleValidateLoop probe m urls acc).1 → r ∈ acc ∨ r.status = "success" := by
  intro urls
  induction urls with
  | nil =>
    intro acc r h
    simp [simpleValidateLoop] at h
    exact Or.inl h
  | cons u rest ih =>
    intro acc r h
    by_cases hg : (acc.length : Int) ≥ m
    · unfold simpleValidateLoop at h
      rw [if_pos hg] at h
      exact Or.inl h
    · rw [svl_cons_ne probe m u rest acc hg] at h
      rcases ih _ r h with hmem | hsucc
      · exact svlStep_status probe m u acc r hmem
      · exact Or.inr hsucc

/-- C5 counterexample: a candidate whose HEAD probe *fails validation*
without raising — a 200 response with content type `text/html` — is
dropped from the result list even though it is far below the
`max_results` cap, instead of being included marked unvalidated. -/
theorem c5_counterexample :
    probeValid (demoProbeHtml "http://a.com/x.png") = false ∧
    (simpleValidateLoop demoProbeHtml 5 ["http://a.com/x.png"] []).1 = [] := by
  exact ⟨by decide, by decide⟩

/-- C5 (amended): in the validation loop of the HTTP fallback, a
candidate whose HEAD probe *raises* is still included (below the
`max_results` cap) as a success entry whose title is marked
"(unvalidated)"; a candidate whose probe *returns* a non-200 status or
a non-image content type contributes nothing and the loop moves on; and
the result list never exceeds `max_results`. -/
theorem c5_probe_failure_handling :
    (∀ (probe : String → ProbeResult) (m : Int) (urls : List String) (u : String),
      u ∈ urls → probe u = ProbeResult.exn →
      (((simpleValidateLoop probe m urls []).1.length : Int) < m) →
      ∃ r ∈ (simpleValidateLoop probe m urls []).1,
        r.url = some u ∧
        r.title = some ("Image from " ++ (pyUrlparse u).netloc ++ " (unvalidated)") ∧
        r.status = "success") ∧
    (∀ (probe : String → ProbeResult) (m : Int) (u : String) (rest : List String)
        (acc : List SearchResult) (st : Nat) (ct : Option String),
      ((acc.length : Int) < m) → probe u = ProbeResult.resp st ct →
      (st == 200 && pyStartsWith (ct.getD "") "image/") = false →
      (simpleValidateLoop probe m (u :: rest) acc).1 =
        (simpleValidateLoop probe m rest acc).1) ∧
    (∀ (probe : String → ProbeResult) (m : Int) (urls : List String),
      (simpleValidateLoop probe m urls []).1.length ≤ m.toNat) := by
  refine ⟨?_, ?_, ?_⟩
  · -- inclusion of exception-probed candidates, generalised over the
    -- accumulator for the induction
    suffices key : ∀ (probe : String → ProbeResult) (m : Int) (urls : List String)
        (acc : List SearchResult) (u : String),
        u ∈ urls → probe u = ProbeResult.exn →
        (((simpleValidateLoop probe m urls acc).1.length : Int) < m) →
        ∃ r ∈ (simpleValidateLoop probe m urls acc).1,
          r.url = some u ∧
          r.title = some ("Image from " ++ (pyUrlparse u).netloc ++ " (unvalidated)") ∧
          r.status = "success" by
      intro probe m urls u hu hexn hlen
      exact key probe m urls [] u hu hexn hlen
    intro probe m urls
    induction urls with
    | nil => intro acc u hu; exact absurd hu (List.not_mem_nil u)
    | cons u' rest ih =>
      intro acc u hu hexn hlen
      by_cases hg : (acc.length : Int) ≥ m
      · exfalso
        unfold simpleValidateLoop at hlen
        rw [if_pos hg] at hlen
        simp at hlen
        omega
      · rw [svl_cons_ne probe m u' rest acc hg] at hlen ⊢
        simp only at hlen ⊢
        rcases List.mem_cons.mp hu with rfl | hu'
        · have hmem : unvalidatedEntry u ∈
              (simpleValidateLoop probe m rest (svlStep probe m u acc)).1 := by
            apply svl_mem_acc
            simp only [svlStep, hexn]
            rw [if_pos (by omega : (acc.length : Int) < m)]
            exact List.mem_append_right acc (by simp)
          exact ⟨_, hmem, rfl, rfl, rfl⟩
        · exact ih _ u hu' hexn hlen
  · intro probe m u rest acc st ct hg hprobe hbad
    rw [svl_cons_ne probe m u rest acc (by omega),
      svlStep_drop probe m u acc st ct hprobe hbad]
  · intro probe m urls
    simpa using svl_length_le probe m urls []

theorem c5_witness :
    (∃ r ∈ (simpleValidateLoop demoProbeExn 5 ["http://a.com/x.png"] []).1,
      r.url = some "http://a.com/x.png" ∧
      r.title = some ("Image from " ++ (pyUrlparse "http://a.com/x.png").netloc
        ++ " (unvalidated)") ∧
      r.status = "success") ∧
    (simpleValidateLoop demoProbeHtml 5 ("http://a.com/x.png" :: []) []).1 =
      (simpleValidateLoop demoProbeHtml 5 [] ([] : List SearchResult)).1 := by
  constructor
  · exact c5_probe_failure_handling.1 demoProbeExn 5 ["http://a.com/x.png"]
      "http://a.com/x.png" (by simp) rfl (by decide)
  · exact c5_probe_failure_handling.2.1 demoProbeHtml 5 "http://a.com/x.png" [] []
      200 (some "text/html") (by decide) rfl (by decide)

/-! ## C1 — result length and status of `search_google_images`
(corrected)

Every strategy respects the `max_results` cap and emits only `success`
or `failed` statuses; but each failure path returns a *single-element*
failure list, so for `max_results ≤ 0` (clamped bound ≤ 0) the returned
list has length 1 > min(max_results, 20).  The claim holds for every
`max_results ≥ 1`. -/

theorem selLoop_length (m : Int) :
    ∀ (events : List SelEvent) (acc : List SearchResult),
      (selLoop m events acc).length ≤ max acc.length m.toNat := by
  intro events
  induction events with
  | nil =>
    intro acc
    simp [selLoop]
  | cons e rest ih =>
    intro acc
    cases e with
    | found u t s =>
      by_cases hg : (acc.length : Int) ≥ m
      · unfold selLoop
        rw [if_pos hg]
        exact Nat.le_max_left acc.length m.toNat
      · unfold selLoop
        rw [if_neg hg]
        have hlt : acc.length < m.toNat := by
          simp only [not_le] at hg
          omega
        have := ih (acc ++ [selFoundEntry u t s])
        simp only [List.length_append, List.length_cons, List.length_nil] at this
        omega
    | skip =>
      by_cases hg : (acc.length : Int) ≥ m
      · unfold selLoop
        rw [if_pos hg]
        exact Nat.le_max_left acc.length m.toNat
      · unfold selLoop
        rw [if_neg hg]
        exact ih acc
    | stop =>
      unfold selLoop
      exact Nat.le_max_left acc.length m.toNat

theorem selLoop_status (m : Int) :
    ∀ (events : List SelEvent) (acc : List SearchResult) (r : SearchResult),
      r ∈ selLoop m events acc → r ∈ acc ∨ r.status = "success" := by
  intro events
  induction events with
  | nil =>
    intro acc r h
    simp [selLoop] at h
    exact Or.inl h
  | cons e rest ih =>
    intro acc r h
    cases e with
    | found u t s =>
      by_cases hg : (acc.length : Int) ≥ m
      · unfold selLoop at h
        rw [if_pos hg] at h
        exact Or.inl h
      · unfold selLoop at h
        rw [if_neg hg] at h
        rcases ih _ r h with hmem | hs
        · rcases List.mem_append.mp hmem with h1 | h2
          · exact Or.inl h1
          · simp at h2
            subst h2
            exact Or.inr rfl
        · exact Or.inr hs
    | skip =>
      by_cases hg : (acc.length : Int) ≥ m
      · unfold selLoop at h
        rw [if_pos hg] at h
        exact Or.inl h
      · unfold selLoop at h
        rw [if_neg hg] at h
        exact ih acc r h
    | stop =>
      unfold selLoop at h
      exact Or.inl h

theorem selenium_results_bound (senv : SelEnv) (q : String) (m : Int) (hm : 1 ≤ m) :
    ((search_images_selenium senv q m).results.length : Int) ≤ m ∧
    ∀ r ∈ (search_images_selenium senv q m).results,
      r.status = "success" ∨ r.status = "failed" := by
  cases hs : senv.setup with
  | failNoDriver =>
    simp only [search_images_selenium, hs]
    exact ⟨by simpa using hm, by intro r hr; simp at hr; subst hr; exact Or.inr rfl⟩
  | failAfterDriver =>
    simp only [search_images_selenium, hs]
    exact ⟨by simpa using hm, by intro r hr; simp at hr; subst hr; exact Or.inr rfl⟩
  | ok =>
    cases ho : senv.outerRaise with
    | some msg =>
      simp only [search_images_selenium, hs, ho]
      exact ⟨by simpa using hm, by intro r hr; simp at hr; subst hr; exact Or.inr rfl⟩
    | none =>
      simp only [search_images_selenium, hs, ho]
      constructor
      · have := selLoop_length m senv.events []
        simp only [List.length_nil, Nat.max_eq_right (Nat.zero_le _)] at this
        omega
      · intro r hr
        rcases selLoop_status m senv.events [] r hr with hmem | hsucc
        · exact absurd hmem (List.not_mem_nil r)
        · exact Or.inl hsucc

theorem simple_results_bound (senv : SimpleEnv) (q : String) (m : Int) (hm : 1 ≤ m) :
    ((searchSimpleMethod senv q m).results.length : Int) ≤ m ∧
    ∀ r ∈ (searchSimpleMethod senv q m).results,
      r.status = "success" ∨ r.status = "failed" := by
  have hloop : ∀ (urls : List String),
      (((simpleValidateLoop senv.probe m urls []).1.length : Int) ≤ m) ∧
      ∀ r ∈ (simpleValidateLoop senv.probe m urls []).1,
        r.status = "success" ∨ r.status = "failed" := by
    intro urls
    constructor
    · have := svl_length_le senv.probe m urls []
      simp only [List.length_nil, Nat.max_eq_right (Nat.zero_le _)] at this
      omega
    · intro r hr
      rcases svl_status senv.probe m urls [] r hr with hmem | hsucc
      · exact absurd hmem (List.not_mem_nil r)
      · exact Or.inl hsucc
  unfold searchSimpleMethod
  cases hf1 : senv.fetch1 with
  | some body =>
    simp only
    exact hloop _
  | none =>
    cases hf2 : senv.fetch2 with
    | some body =>
      simp only
      exact hloop _
    | none =>
      simp only
      exact ⟨by simpa using hm, by intro r hr; simp at hr; subst hr; exact Or.inr rfl⟩

theorem searcher_results_bound (env : GEnv) (q : String) (m : Int) (hm : 1 ≤ m) :
    ((searcher_search_images env q m).results.length : Int) ≤ m ∧
    ∀ r ∈ (searcher_search_images env q m).results,
      r.status = "success" ∨ r.status = "failed" := by
  unfold searcher_search_images
  by_cases ha : env.selAvailable
  · simp only [ha, if_true]
    split
    · exact selenium_results_bound env.sel q m hm
    · exact simple_results_bound env.simple q m hm
  · simp only [ha, Bool.false_eq_true, if_false]
    exact simple_results_bound env.simple q m hm

/-- C1 counterexample: with `max_results = 0` (clamped bound 0) the
tool still returns a single-element failure list, exceeding the
claimed bound `min(max_results, 20)`. -/
theorem c1_counterexample :
    ¬(((search_google_images demoGEnv "cat" 0).results.length : Int) ≤ min (0 : Int) 20) := by
  decide

/-- C1 (amended to `max_results ≥ 1`): for every environment, every
non-empty (not whitespace-only) query and every integer
`max_results ≥ 1`, the list returned by `search_google_images` has
length at most the clamped bound `min(max_results, 20)`, and every
element's status is "success" or "failed". -/
theorem c1_search_length_status (env : GEnv) (query : String) (maxResults : Int)
    (hq : pyStripIsEmpty query = false) (hm : 1 ≤ maxResults) :
    ((search_google_images env query maxResults).results.length : Int)
      ≤ min maxResults 20 ∧
    ∀ r ∈ (search_google_images env query maxResults).results,
      r.status = "success" ∨ r.status = "failed" := by
  have hm' : 1 ≤ min maxResults 20 := le_min hm (by norm_num)
  have hb := searcher_results_bound env query (min maxResults 20) hm'
  unfold search_google_images
  rw [if_neg (by simp [hq])]
  dsimp only
  split
  · exact ⟨by simpa using hm', by intro r hr; simp at hr; subst hr; exact Or.inr rfl⟩
  · exact hb

theorem c1_witness :
    pyStripIsEmpty "cat" = false ∧ (1 : Int) ≤ 10 ∧
    (((search_google_images demoGEnv "cat" 10).results.length : Int) ≤ min (10 : Int) 20 ∧
      ∀ r ∈ (search_google_images demoGEnv "cat" 10).results,
        r.status = "success" ∨ r.status = "failed") :=
  ⟨by decide, by decide, c1_search_length_status demoGEnv "cat" 10 (by decide) (by decide)⟩

/-! ## C4 — the URL extractor (corrected)

The spec's own example URL `https://x.com/a.jpg` is 19 characters long,
but the filter at mcp_image.py:191 requires `len(url) > 20`, so the
example (and every ou-field URL of length ≤ 20) is *excluded*.  The
inclusion half holds once the URL additionally satisfies the filter
(length strictly between 20 and 2000, no skip marker, unchanged by
cleanup) and consists of scheme plus run characters outside `"\s,`,
via the raw-URL pattern scanner; the exclusion half holds as stated. -/

theorem isPrefixOfCI_length :
    ∀ (p l : List Char), isPrefixOfCI p l = true → p.length ≤ l.length := by
  intro p
  induction p with
  | nil => intro l _; simp
  | cons c cs ih =>
    intro l h
    cases l with
    | nil => simp [isPrefixOfCI] at h
    | cons x xs =>
      simp only [isPrefixOfCI, Bool.and_eq_true] at h
      simpa using ih xs h.2

theorem isPrefixOfCI_append_self :
    ∀ (p t : List Char), isPrefixOfCI p (p ++ t) = true := by
  intro p
  induction p with
  | nil => intro t; rfl
  | cons c cs ih =>
    intro t
    simp only [List.cons_append, isPrefixOfCI, Bool.and_eq_true]
    exact ⟨by simp [charCI], ih t⟩

theorem excluded_toLower_self {c : Char} (h : isExcluded c = true) :
    c.toLower = c := by
  simp only [isExcluded, pyIsSpace, Bool.or_eq_true, beq_iff_eq] at h
  have hcase : c = '"' ∨ c = ' ' ∨ c = '\t' ∨ c = '\n' ∨ c = '\r' ∨ c = '\x0b'
      ∨ c = '\x0c' ∨ c = ',' := by tauto
  rcases hcase with rfl | rfl | rfl | rfl | rfl | rfl | rfl | rfl <;> decide

theorem charCI_nonExcluded {p c : Char} (hp : isExcluded p.toLower = false)
    (h : charCI p c = true) : isExcluded c = false := by
  by_contra hc
  rw [Bool.not_eq_false] at hc
  have h1 : c.toLower = c := excluded_toLower_self hc
  have h2 : p.toLower = c.toLower := by simpa [charCI] using h
  rw [h2, h1] at hp
  rw [hc] at hp
  exact Bool.true_eq_false.mp hp

theorem isPrefixOfCI_take_nonExcluded :
    ∀ (p l : List Char), isPrefixOfCI p l = true →
      (∀ pc ∈ p, isExcluded pc.toLower = false) →
      ∀ c ∈ l.take p.length, isExcluded c = false := by
  intro p
  induction p with
  | nil => intro l _ _ c hc; simp at hc
  | cons pc ps ih =>
    intro l h hp c hc
    cases l with
    | nil => simp [isPrefixOfCI] at h
    | cons x xs =>
      simp only [isPrefixOfCI, Bool.and_eq_true] at h
      simp only [List.length_cons, List.take_succ_cons, List.mem_cons] at hc
      rcases hc with rfl | hc
      · exact charCI_nonExcluded (hp pc (List.mem_cons_self pc ps)) h.1
      · exact ih xs h.2 (fun q hq => hp q (List.mem_cons_of_mem pc hq)) c hc

theorem schemeHeadLen_some {l : List Char} {k : Nat} (h : schemeHeadLen l = some k) :
    (k = 8 ∧ isPrefixOfCI ("https://".toList) l = true) ∨
      (k = 7 ∧ isPrefixOfCI ("http://".toList) l = true) := by
  unfold schemeHeadLen at h
  split at h
  · rename_i h8
    exact Or.inl ⟨by injection h with h; omega, h8⟩
  · split at h
    · rename_i h7
      exact Or.inr ⟨by injection h with h; omega, h7⟩
    · exact absurd h (by simp)

theorem match5head_some {l m l' : List Char}
    (h : match5head l = some (m, l')) :
    l = m ++ l' ∧ 0 < m.length ∧ ∀ c ∈ m, isExcluded c = false := by
  unfold match5head at h
  cases hsch : schemeHeadLen l with
  | none => rw [hsch] at h; exact absurd h (by simp)
  | some k =>
    rw [hsch] at h
    simp only at h
    split at h
    · rename_i hext
      injection h with h
      injection h with hm hl'
      have hkl : k ≤ l.length := by
        rcases schemeHeadLen_some hsch with ⟨hk, hpre⟩ | ⟨hk, hpre⟩
        · subst hk
          simpa using isPrefixOfCI_length _ _ hpre
        · subst hk
          simpa using isPrefixOfCI_length _ _ hpre
      have hk7 : 7 ≤ k := by
        rcases schemeHeadLen_some hsch with ⟨hk, _⟩ | ⟨hk, _⟩ <;> omega
      have hpat : ∀ c ∈ l.take k, isExcluded c = false := by
        rcases schemeHeadLen_some hsch with ⟨hk, hpre⟩ | ⟨hk, hpre⟩ <;> subst hk
        · exact isPrefixOfCI_take_nonExcluded _ l hpre (by decide)
        · exact isPrefixOfCI_take_nonExcluded _ l hpre (by decide)
      refine ⟨?_, ?_, ?_⟩
      · rw [← hm, ← hl']
        rw [List.append_assoc, List.takeWhile_append_dropWhile, List.take_append_drop]
      · rw [← hm]
        simp only [List.length_append, List.length_take]
        omega
      · intro c hc
        rw [← hm] at hc
        rcases List.mem_append.mp hc with h1 | h2
        · exact hpat c h1
        · have := List.mem_takeWhile_imp h2
          simpa [notExcluded, Bool.not_eq_true'] using this
    · exact absurd h (by simp)

theorem takeWhile_all_append (p : Char → Bool) :
    ∀ (l₁ l₂ : List Char), (∀ c ∈ l₁, p c = true) →
      (l₂ = [] ∨ ∃ c t, l₂ = c :: t ∧ p c = false) →
      (l₁ ++ l₂).takeWhile p = l₁ ∧ (l₁ ++ l₂).dropWhile p = l₂ := by
  intro l₁
  induction l₁ with
  | nil =>
    intro l₂ _ h2
    rcases h2 with rfl | ⟨c, t, rfl, hc⟩
    · simp
    · simp [List.takeWhile, List.dropWhile, hc]
  | cons x xs ih =>
    intro l₂ h1 h2
    have hx : p x = true := h1 x (List.mem_cons_self x xs)
    have := ih l₂ (fun c hc => h1 c (List.mem_cons_of_mem x hc)) h2
    refine ⟨?_, ?_⟩
    · rw [List.cons_append, List.takeWhile_cons, if_pos hx, this.1]
    · rw [List.cons_append, List.dropWhile_cons, if_pos hx, this.2]

theorem match5head_exact (sch rest b : List Char)
    (hsch : sch = "http://".toList ∨ sch = "https://".toList)
    (hrest : ∀ c ∈ rest, isExcluded c = false)
    (hext : hasExtCI rest = true)
    (hb : b = [] ∨ ∃ c t, b = c :: t ∧ isExcluded c = true) :
    match5head (sch ++ rest ++ b) = some (sch ++ rest, b) := by
  have hrun : (rest ++ b).takeWhile notExcluded = rest ∧
      (rest ++ b).dropWhile notExcluded = b := by
    apply takeWhile_all_append
    · intro c hc
      simp [notExcluded, hrest c hc]
    · rcases hb with rfl | ⟨c, t, rfl, hc⟩
      · exact Or.inl rfl
      · exact Or.inr ⟨c, t, rfl, by simp [notExcluded, hc]⟩
  rcases hsch with rfl | rfl
  · have hnotS : isPrefixOfCI ("https://".toList) ("http://".toList ++ rest ++ b)
        = false := by
      simp [isPrefixOfCI, charCI]
    have hsch7 : schemeHeadLen ("http://".toList ++ rest ++ b) = some 7 := by
      unfold schemeHeadLen
      rw [hnotS]
      simp only [Bool.false_eq_true, if_false]
      rw [if_pos]
      rw [List.append_assoc]
      exact isPrefixOfCI_append_self _ _
    have hd7 : ("http://".toList ++ (rest ++ b)).drop 7 = rest ++ b :=
      List.drop_left "http://".toList (rest ++ b)
    have ht7 : ("http://".toList ++ (rest ++ b)).take 7 = "http://".toList :=
      List.take_left "http://".toList (rest ++ b)
    unfold match5head
    rw [hsch7]
    dsimp only
    rw [List.append_assoc, hd7, ht7, hrun.1, hrun.2, if_pos hext]
  · have hsch8 : schemeHeadLen ("https://".toList ++ rest ++ b) = some 8 := by
      unfold schemeHeadLen
      rw [if_pos]
      rw [List.append_assoc]
      exact isPrefixOfCI_append_self _ _
    have hd8 : ("https://".toList ++ (rest ++ b)).drop 8 = rest ++ b :=
      List.drop_left "https://".toList (rest ++ b)
    have ht8 : ("https://".toList ++ (rest ++ b)).take 8 = "https://".toList :=
      List.take_left "https://".toList (rest ++ b)
    unfold match5head
    rw [hsch8]
    dsimp only
    rw [List.append_assoc, hd8, ht8, hrun.1, hrun.2, if_pos hext]

theorem toList_mk (l : List Char) : (String.mk l).toList = l := rfl

/-- If the head function matches exactly at the front, the scanner
emits that match (given at least one unit of fuel). -/
theorem scanGo_fire (head : List Char → Option (List Char × List Char))
    (Hsome : ∀ l m l', head l = some (m, l') →
      l = m ++ l' ∧ 0 < m.length ∧ ∀ c ∈ m, isExcluded c = false)
    (fuel : Nat) (u b : List Char)
    (hu : head (u ++ b) = some (u, b))
    (hfuel : u.length + b.length ≤ fuel) :
    u ∈ scanGo head fuel (u ++ b) := by
  obtain ⟨-, hpos, -⟩ := Hsome _ _ _ hu
  cases fuel with
  | zero => exact absurd hfuel (by omega)
  | succ f =>
    cases u with
    | nil => simp at hpos
    | cons c t =>
      rw [List.cons_append] at hu ⊢
      unfold scanGo
      rw [hu]
      dsimp only
      exact List.mem_cons_self _ _

/-- Completeness of the non-overlapping scanner: an occurrence that the
head function matches exactly, preceded by a character outside the
match alphabet (so no earlier match can overlap it), is found. -/
theorem scanGo_complete (head : List Char → Option (List Char × List Char))
    (Hsome : ∀ l m l', head l = some (m, l') →
      l = m ++ l' ∧ 0 < m.length ∧ ∀ c ∈ m, isExcluded c = false) :
    ∀ (fuel : Nat) (a₀ : List Char) (d : Char) (u b : List Char),
      isExcluded d = true →
      head (u ++ b) = some (u, b) →
      a₀.length + 1 + u.length + b.length ≤ fuel →
      u ∈ scanGo head fuel (a₀ ++ d :: (u ++ b)) := by
  intro fuel
  induction fuel with
  | zero =>
    intro a₀ d u b _ _ hle
    exact absurd hle (by omega)
  | succ fuel ih =>
    intro a₀ d u b hd hu hle
    cases a₀ with
    | nil =>
      simp only [List.nil_append]
      cases hh : head (d :: (u ++ b)) with
      | some p =>
        obtain ⟨m, l'⟩ := p
        obtain ⟨heq, hpos, hchars⟩ := Hsome _ _ _ hh
        cases m with
        | nil => simp at hpos
        | cons c cs =>
          rw [List.cons_append] at heq
          injection heq with h1 h2
          have hcf := hchars c (List.mem_cons_self c cs)
          rw [← h1, hd] at hcf
          simp at hcf
      | none =>
        unfold scanGo
        rw [hh]
        dsimp only
        exact scanGo_fire head Hsome fuel u b hu (by simp at hle; omega)
    | cons a a₀' =>
      rw [List.cons_append]
      cases hh : head (a :: (a₀' ++ d :: (u ++ b))) with
      | none =>
        unfold scanGo
        rw [hh]
        dsimp only
        exact ih a₀' d u b hd hu (by simp at hle ⊢; omega)
      | some p =>
        obtain ⟨m, l'⟩ := p
        obtain ⟨heq, hpos, hchars⟩ := Hsome _ _ _ hh
        rw [← List.cons_append] at heq
        have hml : m.length ≤ (a :: a₀').length := by
          by_contra hgt
          push_neg at hgt
          have hm_take : m = ((a :: a₀') ++ d :: (u ++ b)).take m.length := by
            rw [heq]
            exact (List.take_left m l').symm
          have hlen0 : 0 < m.length - (a :: a₀').length := by omega
          have hdm : d ∈ m := by
            rw [hm_take, List.take_append_eq_append_take]
            apply List.mem_append_right
            cases hk : m.length - (a :: a₀').length with
            | zero =>
              rw [hk] at hlen0
              exact absurd hlen0 (by omega)
            | succ k =>
              rw [List.take_succ_cons]
              exact List.mem_cons_self _ _
          have hcf := hchars d hdm
          rw [hd] at hcf
          simp at hcf
        have hl' : l' = (a :: a₀').drop m.length ++ d :: (u ++ b) := by
          have h2 : ((a :: a₀') ++ d :: (u ++ b)).drop m.length = l' := by
            rw [heq]
            exact List.drop_left m l'
          rw [← h2, List.drop_append_of_le_length hml]
        unfold scanGo
        rw [hh]
        dsimp only
        apply List.mem_cons_of_mem
        rw [hl']
        apply ih _ d u b hd hu
        simp only [List.length_cons] at hle hml
        simp only [List.length_drop, List.length_cons]
        omega

/-- Membership in the extracted set via the fifth pattern. -/
theorem mem_extract_of_scan5 (text : String) (u : List Char)
    (h5 : u ∈ scan5 text.toList)
    (hclean : cleanUrl (String.mk u) = String.mk u)
    (hkeep : keepUrl (String.mk u) = true) :
    String.mk u ∈ extractImageUrls text := by
  unfold extractImageUrls
  rw [List.mem_dedup]
  apply List.mem_filter.mpr
  refine ⟨?_, hkeep⟩
  apply List.mem_map.mpr
  refine ⟨u, ?_, hclean⟩
  unfold patternMatches
  exact List.mem_append_right _ h5

/-- C4 counterexample: the spec's own example input.  The URL
`https://x.com/a.jpg` occurs in a quoted `"ou":"…"` field and is a
well-formed absolute http(s) image URL, yet the extracted set is empty
(the URL is 19 characters long and the filter requires length > 20). -/
theorem c4_counterexample :
    specWellFormedImageUrl "https://x.com/a.jpg" = true ∧
    ("https://x.com/a.jpg".toList
      ∈ quotedFieldMatches "ou" ("\"ou\":\"https://x.com/a.jpg\"".toList)) ∧
    extractImageUrls "\"ou\":\"https://x.com/a.jpg\"" = [] := by
  refine ⟨by decide, by decide, by decide⟩

/-- C4 (amended): (A) the extracted set contains every URL of a quoted
`"ou":"<url>"` field that is a well-formed absolute http(s) image URL
made of scheme plus characters outside `"\s,`, mentions one of the
regex extensions, is unchanged by the cleanup pass, and passes the
candidate filter (image-extension marker, no thumbnail/CDN marker,
length strictly between 20 and 2000); (B) every extracted candidate
avoids all skip markers and has length strictly between 20 and 2000;
(C) an input containing only a gstatic.com thumbnail URL yields an
empty extracted set. -/
theorem c4_extractor_characterisation :
    (∀ (pre post : String) (sch rest : List Char),
      (sch = "http://".toList ∨ sch = "https://".toList) →
      (∀ c ∈ rest, isExcluded c = false) →
      hasExtCI rest = true →
      cleanUrl (String.mk (sch ++ rest)) = String.mk (sch ++ rest) →
      keepUrl (String.mk (sch ++ rest)) = true →
      String.mk (sch ++ rest) ∈
        extractImageUrls (pre ++ "\"ou\":\"" ++ String.mk (sch ++ rest) ++ "\"" ++ post)) ∧
    (∀ (text u : String), u ∈ extractImageUrls text →
      (∀ p ∈ skipPatterns, pyContains (pyLower u) p = false) ∧
      20 < u.length ∧ u.length < 2000) ∧
    extractImageUrls "see https://encrypted-tbn0.gstatic.com/images?q=tbn:ANd9GcT.jpg" = [] := by
  refine ⟨?_, ?_, by decide⟩
  · intro pre post sch rest hsch hrest hext hclean hkeep
    apply mem_extract_of_scan5 _ _ ?_ hclean hkeep
    unfold scan5 scanMatches
    have htext : (pre ++ "\"ou\":\"" ++ String.mk (sch ++ rest) ++ "\"" ++ post).toList
        = (pre.toList ++ ['"', 'o', 'u', '"', ':'])
            ++ '"' :: ((sch ++ rest) ++ '"' :: post.toList) := by
      rw [toList_append, toList_append, toList_append, toList_append, toList_mk]
      show pre.toList ++ ('"' :: 'o' :: 'u' :: '"' :: ':' :: '"' :: [])
          ++ (sch ++ rest) ++ ('"' :: []) ++ post.toList = _
      simp [List.append_assoc]
    rw [htext]
    have hu : match5head ((sch ++ rest) ++ ('"' :: post.toList))
        = some (sch ++ rest, '"' :: post.toList) :=
      match5head_exact sch rest ('"' :: post.toList) hsch hrest hext
        (Or.inr ⟨'"', post.toList, rfl, by decide⟩)
    apply scanGo_complete match5head (fun l m l' h => match5head_some h) _
      (pre.toList ++ ['"', 'o', 'u', '"', ':']) '"' (sch ++ rest) ('"' :: post.toList)
      (by decide) hu
    simp [List.length_append]
    omega
  · intro text u hu
    unfold extractImageUrls at hu
    rw [List.mem_dedup] at hu
    obtain ⟨-, hkeep⟩ := List.mem_filter.mp hu
    unfold keepUrl at hkeep
    simp only [Bool.and_eq_true, Bool.not_eq_true', decide_eq_true_eq] at hkeep
    refine ⟨?_, hkeep.2.1, hkeep.2.2⟩
    intro p hp
    have hskip := hkeep.1.2
    rw [List.any_eq_false] at hskip
    simpa using hskip p hp

theorem c4_witness :
    String.mk ("https://".toList ++ "example.com/photo-of-a-cat.jpg".toList) ∈
      extractImageUrls ("see "
        ++ "\"ou\":\""
        ++ String.mk ("https://".toList ++ "example.com/photo-of-a-cat.jpg".toList)
        ++ "\"" ++ " done") :=
  c4_extractor_characterisation.1 "see " " done" ("https://".toList)
    ("example.com/photo-of-a-cat.jpg".toList) (Or.inr rfl) (by decide) (by decide)
    (by decide) (by decide)

end MCPImage
